import Mathlib

/-!
Shallow embedding of the Metro Runner gameplay simulation
(src/Player.h, src/GameObject.h, src/GameWorld.h, src/Game.h, src/GameData.h).

Machine floats are modelled by rationals; all constants in the source are
small decimal literals, exact in ℚ.  `rand()` calls are modelled by threading
the drawn values in as explicit inputs.
-/

namespace MetroRunner

/-- Player state, from `class Player` in src/Player.h. -/
structure Player where
  x : ℚ
  y : ℚ
  velocityY : ℚ
  width : ℚ
  height : ℚ
  isJumping : Bool
  isDucking : Bool
  headIndex : Int
  abilityActive : Bool
  abilityTimer : ℚ
  abilityCooldown : ℚ
  canDoubleJump : Bool
  hasDoubleJumped : Bool
deriving DecidableEq

/-- The `Player()` constructor. -/
def Player.new : Player :=
  { x := 200, y := 400, velocityY := 0, width := 40, height := 80,
    isJumping := false, isDucking := false, headIndex := 0,
    abilityActive := false, abilityTimer := 0, abilityCooldown := 0,
    canDoubleJump := false, hasDoubleJumped := false }

/-- `Player::jump()`. -/
def Player.jump (p : Player) : Player :=
  if p.isJumping = false then
    { p with velocityY := -12, isJumping := true, hasDoubleJumped := false }
  else if p.headIndex = 1 ∧ p.isJumping = true ∧ p.hasDoubleJumped = false ∧
          p.abilityActive = true then
    { p with velocityY := -12, hasDoubleJumped := true }
  else
    p

/-- `Player::activateAbility()`. -/
def Player.activateAbility (p : Player) : Player :=
  if p.abilityCooldown ≤ 0 then
    let p1 := { p with abilityActive := true }
    let p2 :=
      if p1.headIndex = 0 then { p1 with abilityTimer := 5 }
      else if p1.headIndex = 1 then { p1 with abilityTimer := 8, canDoubleJump := true }
      else if p1.headIndex = 2 then { p1 with abilityTimer := 6 }
      else if p1.headIndex = 3 then { p1 with abilityTimer := 5 }
      else p1
    { p2 with abilityCooldown := 8 }
  else
    p

/-- `Player::duck()`. -/
def Player.duck (p : Player) : Player :=
  if p.isJumping = false then { p with isDucking := true, height := 40 } else p

/-- `Player::stopDuck()`. -/
def Player.stopDuck (p : Player) : Player :=
  if p.isDucking = true then { p with isDucking := false, height := 80 } else p

/-- `Player::update(groundY, deltaTime)`. -/
def Player.update (p : Player) (groundY dt : ℚ) : Player :=
  let p1 :=
    if p.abilityActive = true then
      let t := p.abilityTimer - dt
      if t ≤ 0 then
        { p with abilityTimer := t, abilityActive := false,
                 canDoubleJump := if p.headIndex = 1 then false else p.canDoubleJump }
      else
        { p with abilityTimer := t }
    else p
  let p2 :=
    if p1.abilityCooldown > 0 then
      { p1 with abilityCooldown := p1.abilityCooldown - dt }
    else p1
  let p3 := { p2 with y := p2.y + p2.velocityY }
  if p3.isJumping = true then
    let p4 := { p3 with velocityY := p3.velocityY + 1/2 }
    if p4.y ≥ groundY then
      { p4 with y := groundY, velocityY := 0, isJumping := false }
    else p4
  else
    if p3.y > groundY then { p3 with y := groundY, velocityY := 0 } else p3

/-- `Player::getSpeedMultiplier()` (always 1.0). -/
def Player.getSpeedMultiplier (_ : Player) : ℚ := 1

/-- `Player::isInvincible()`. -/
def Player.isInvincible (p : Player) : Bool :=
  decide (p.headIndex = 0) && p.abilityActive

/-- `Player::hasDoubleCoinBonus()`. -/
def Player.hasDoubleCoinBonus (p : Player) : Bool :=
  decide (p.headIndex = 2) && p.abilityActive

/-- `Player::getPlayerSpeedMultiplier()`. -/
def Player.getPlayerSpeedMultiplier (p : Player) : ℚ :=
  if p.headIndex = 3 ∧ p.abilityActive = true then 9/5 else 1

/-- `SCREEN_WIDTH` from src/Renderer2D.h. -/
def SCREEN_WIDTH : ℚ := 1200

/-- `struct Metro` from src/GameObject.h. -/
structure Metro where
  x : ℚ
  y : ℚ
  width : ℚ
  active : Bool
deriving DecidableEq

/-- The `Metro(x, y, w)` constructor. -/
def Metro.new (x y w : ℚ) : Metro := ⟨x, y, w, true⟩

/-- `struct Obstacle` from src/GameObject.h. -/
structure Obstacle where
  x : ℚ
  y : ℚ
  width : ℚ
  height : ℚ
  isFlying : Bool
  active : Bool
deriving DecidableEq

/-- The `Obstacle(x, y, w, h, flying)` constructor. -/
def Obstacle.new (x y w h : ℚ) (flying : Bool) : Obstacle := ⟨x, y, w, h, flying, true⟩

/-- `struct Coin` from src/GameObject.h. -/
structure Coin where
  x : ℚ
  y : ℚ
  size : ℚ
  collected : Bool
deriving DecidableEq

/-- The `Coin(x, y)` constructor. -/
def Coin.new (x y : ℚ) : Coin := ⟨x, y, 20, false⟩

/-- `class GameWorld` state, from src/GameWorld.h. -/
structure GameWorld where
  metros : List Metro
  obstacles : List Obstacle
  coins : List Coin
  metroY : ℚ
  metroGap : ℚ
  gameSpeed : ℚ
  speedIncreaseTimer : ℚ
  coinsCollected : Int
  obstacleTimer : ℚ
  coinTimer : ℚ
deriving DecidableEq

/-- The `GameWorld()` constructor. -/
def GameWorld.new : GameWorld :=
  { metros := [], obstacles := [], coins := [],
    metroY := 500, metroGap := 80, gameSpeed := 3,
    speedIncreaseTimer := 0, coinsCollected := 0,
    obstacleTimer := 0, coinTimer := 0 }

/-- `GameWorld::init()`: the loop `for i in 1..7` pushes
`Metro(600 + (i-1)*(350 + metroGap), metroY, 350)`. -/
def GameWorld.init (w : GameWorld) : GameWorld :=
  { w with
    metros := Metro.new 0 w.metroY 600 ::
      (List.range 7).map (fun i : ℕ => Metro.new (600 + (i : ℚ) * (350 + w.metroGap)) w.metroY 350),
    obstacles := [], coins := [],
    gameSpeed := 3, speedIncreaseTimer := 0, coinsCollected := 0,
    obstacleTimer := 0, coinTimer := 0 }

/-- The `effectiveSpeed` expression computed inside the update methods. -/
def effectiveSpeed (w : GameWorld) (p : Player) : ℚ :=
  w.gameSpeed * p.getSpeedMultiplier * p.getPlayerSpeedMultiplier

/-- The inner `maxX` scan of `GameWorld::updateMetros`: starts from -1000 and
takes every metro whose x is larger. -/
def currentMaxX (ms : List Metro) : ℚ :=
  ms.foldl (fun acc m => if m.x > acc then m.x else acc) (-1000)

/-- The in-place loop of `GameWorld::updateMetros`, as a pass over the vector:
`done` holds the already-updated front, the head of the remaining list is moved
left by `speed` and, when its right edge has passed -50, relocated to
`maxX + 350 + gap` where `maxX` scans the whole current vector. -/
def metroPass (gap speed : ℚ) : List Metro → List Metro → List Metro
  | done, [] => done
  | done, m :: rest =>
    let m1 : Metro := { m with x := m.x - speed }
    let m2 : Metro :=
      if m1.x + m1.width < -50 then
        { m1 with x := currentMaxX (done ++ m1 :: rest) + 350 + gap }
      else m1
    metroPass gap speed (done ++ [m2]) rest

/-- `GameWorld::updateMetros(player)`. -/
def GameWorld.updateMetros (w : GameWorld) (p : Player) : GameWorld :=
  { w with metros := metroPass w.metroGap (effectiveSpeed w p) [] w.metros }

/-- `GameWorld::updateObstacles(deltaTime, player)`; the `rand() % 2` draw is
threaded in as the `obstacleRand` input. -/
def GameWorld.updateObstacles (w : GameWorld) (dt : ℚ) (p : Player) (obstacleRand : ℕ) :
    GameWorld :=
  let t := w.obstacleTimer + dt
  let spawn := t > 2
  let flying := obstacleRand % 2 = 0
  let obs0 :=
    if spawn then
      w.obstacles ++ [Obstacle.new (SCREEN_WIDTH + 50)
        (if flying then w.metroY - 180 else w.metroY - 60) 40
        (if flying then 30 else 60) flying]
    else w.obstacles
  let t1 := if spawn then 0 else t
  let speed := effectiveSpeed w p
  let obs1 := obs0.map (fun o =>
    let o1 : Obstacle := { o with x := o.x - speed }
    if o1.x + o1.width < 0 then { o1 with active := false } else o1)
  { w with obstacleTimer := t1, obstacles := obs1.filter (fun o => o.active) }

/-- The body of the coin loop in `GameWorld::updateCoins`: move the coin left,
then, when it is uncollected and its AABB strictly overlaps the player's AABB,
mark it collected and credit 2 coins under the double-coin bonus else 1. -/
def coinStep (p : Player) (speed : ℚ) (c : Coin) : Coin × Int :=
  let c1 : Coin := { c with x := c.x - speed }
  if c1.collected = false ∧
     p.x < c1.x + c1.size ∧ p.x + p.width > c1.x ∧
     p.y < c1.y + c1.size ∧ p.y + p.height > c1.y then
    ({ c1 with collected := true }, if p.hasDoubleCoinBonus then 2 else 1)
  else
    (c1, 0)

/-- `GameWorld::updateCoins(deltaTime, player)`; the `rand() % 100` draw is
threaded in as the `coinRand` input. -/
def GameWorld.updateCoins (w : GameWorld) (dt : ℚ) (p : Player) (coinRand : ℕ) : GameWorld :=
  let t := w.coinTimer + dt
  let spawn := t > 3/2
  let cs0 :=
    if spawn then
      w.coins ++ [Coin.new (SCREEN_WIDTH + 30) (w.metroY - 150 - ((coinRand % 100 : ℕ) : ℚ))]
    else w.coins
  let t1 := if spawn then 0 else t
  let speed := effectiveSpeed w p
  let stepped := cs0.map (coinStep p speed)
  { w with
    coinTimer := t1,
    coinsCollected := w.coinsCollected + (stepped.map Prod.snd).sum,
    coins := (stepped.map Prod.fst).filter
      (fun c => !(decide (c.x + c.size < 0) || c.collected)) }

/-- The pair of `rand()` draws consumed by one `GameWorld::update` call. -/
structure RandInput where
  obstacleRand : ℕ
  coinRand : ℕ

/-- `GameWorld::update(deltaTime, player)`. -/
def GameWorld.update (w : GameWorld) (dt : ℚ) (p : Player) (r : RandInput) : GameWorld :=
  let t := w.speedIncreaseTimer + dt
  let w1 :=
    if t ≥ 10 then
      { w with gameSpeed := w.gameSpeed + 1/2, speedIncreaseTimer := 0 }
    else
      { w with speedIncreaseTimer := t }
  ((w1.updateMetros p).updateObstacles dt p r.obstacleRand).updateCoins dt p r.coinRand

/-- `GameWorld::isPlayerOnPlatform(player)`. -/
def GameWorld.isPlayerOnPlatform (w : GameWorld) (p : Player) : Bool :=
  let groundY := w.metroY - p.height
  if p.y ≥ groundY - 5 then
    w.metros.any (fun m =>
      let c := p.x + p.width / 2
      decide (c > m.x ∧ c < m.x + m.width))
  else false

/-- `GameWorld::checkObstacleCollision(player)`. -/
def GameWorld.checkObstacleCollision (w : GameWorld) (p : Player) : Bool :=
  if p.isInvincible then false
  else
    w.obstacles.any (fun o =>
      decide (p.x < o.x + o.width ∧ p.x + p.width > o.x ∧
              p.y < o.y + o.height ∧ p.y + p.height > o.y))

/-- `GameWorld::checkFallThrough(player)`. -/
def GameWorld.checkFallThrough (w : GameWorld) (p : Player) : Bool :=
  let c := p.x + p.width / 2
  if w.metros.any (fun m => decide (c > m.x ∧ c < m.x + m.width)) then false
  else decide (p.y > w.metroY + 50)

/-- `GameWorld::getGroundY(player)`. -/
def GameWorld.getGroundY (w : GameWorld) (p : Player) : ℚ :=
  w.metroY - p.height

/-- `enum class GameState` from src/Game.h. -/
inductive GameState where
  | START_SCREEN
  | CHARACTER_SELECT
  | PLAYING
  | GAME_OVER
deriving DecidableEq

/-- The persisted `GameData` record managed by `ScoreManager` (src/GameData.h). -/
structure ScoreData where
  bestScore : Int
  totalCoins : Int
  selectedCharacter : Int
deriving DecidableEq

/-- `ScoreManager::updateBestScore(score)` (the file write is external I/O). -/
def ScoreData.updateBestScore (s : ScoreData) (score : Int) : ScoreData :=
  if score > s.bestScore then { s with bestScore := score } else s

/-- `ScoreManager::addCoins(coins)`. -/
def ScoreData.addCoins (s : ScoreData) (coins : Int) : ScoreData :=
  { s with totalCoins := s.totalCoins + coins }

/-- The simulation-relevant state of `class Game` (src/Game.h): the window,
renderer, input and asset collaborators are external I/O and carry no
simulation state. -/
structure Game where
  gameWorld : GameWorld
  score : ScoreData
  state : GameState
  player : Player
  selectedChar : Int
deriving DecidableEq

/-- `Game::updatePlayer(deltaTime)`. -/
def Game.updatePlayer (g : Game) (dt : ℚ) : Game :=
  let standingOnPlatform := g.gameWorld.isPlayerOnPlatform g.player
  let groundY := g.gameWorld.getGroundY g.player
  if standingOnPlatform = true ∧ g.player.isJumping = false then
    { g with player := g.player.update groundY dt }
  else
    let p1 :=
      if g.player.isJumping = false ∧ g.player.y ≥ groundY then
        { g.player with isJumping := true, velocityY := 1 }
      else g.player
    let p2 := { p1 with y := p1.y + p1.velocityY }
    let p3 := { p2 with velocityY := p2.velocityY + 1/2 }
    let p4 :=
      if p3.y ≥ groundY ∧ standingOnPlatform = true then
        { p3 with y := groundY, velocityY := 0, isJumping := false, hasDoubleJumped := false }
      else p3
    { g with player := p4 }

/-- `Game::endGame()` (console output is external I/O). -/
def Game.endGame (g : Game) : Game :=
  let coins := g.gameWorld.coinsCollected
  { g with state := GameState.GAME_OVER,
           score := (g.score.updateBestScore coins).addCoins coins }

/-- `Game::checkCollisions()`. -/
def Game.checkCollisions (g : Game) : Game :=
  if g.gameWorld.checkObstacleCollision g.player = true ∨
     g.gameWorld.checkFallThrough g.player = true then
    g.endGame
  else g

/-- `Game::update(deltaTime)`; the `rand()` draws of the world update are
threaded in as the `r` input. -/
def Game.update (g : Game) (dt : ℚ) (r : RandInput) : Game :=
  if g.state ≠ GameState.PLAYING then g
  else
    let g1 := g.updatePlayer dt
    let g2 := { g1 with gameWorld := g1.gameWorld.update dt g1.player r }
    g2.checkCollisions

/-- One call of the public `Player` mutators, for stating invariants over
arbitrary call sequences. -/
inductive PlayerOp where
  | duckOp
  | stopDuckOp
  | jumpOp
  | updateOp (groundY dt : ℚ)

/-- Apply one `PlayerOp`. -/
def applyOp (p : Player) : PlayerOp → Player
  | PlayerOp.duckOp => p.duck
  | PlayerOp.stopDuckOp => p.stopDuck
  | PlayerOp.jumpOp => p.jump
  | PlayerOp.updateOp g dt => p.update g dt

/-- Apply a sequence of `PlayerOp` calls in order. -/
def runOps (p : Player) (ops : List PlayerOp) : Player :=
  ops.foldl applyOp p

/-- One `GameWorld::update` call's inputs, for stating invariants over
arbitrary call sequences. -/
structure WorldStep where
  dt : ℚ
  player : Player
  rand : RandInput

/-- Fold a sequence of `GameWorld::update` calls starting from a world. -/
def runWorld (w : GameWorld) (steps : List WorldStep) : GameWorld :=
  steps.foldl (fun w s => w.update s.dt s.player s.rand) w

/-- The height/ducking coupling: height is 40 exactly while ducking, else 80. -/
def heightInv (p : Player) : Prop :=
  (p.isDucking = true ∧ p.height = 40) ∨ (p.isDucking = false ∧ p.height = 80)

/-- A player whose horizontal center (1000) is over the gap between the second
and third initial platforms, 51 units below platform level. -/
def playerFallHigh : Player := { Player.new with x := 980, y := 551 }

/-- Same horizontal placement, 49 units below platform level. -/
def playerFallLow : Player := { Player.new with x := 980, y := 549 }

/-- Same horizontal placement, at ground level + 51 for the default height 80. -/
def playerAboveGround : Player := { Player.new with x := 980, y := 471 }

/-- A player whose horizontal center (1030) sits exactly on the left edge of
the third initial platform, at ground level. -/
def playerEdge : Player := { Player.new with x := 1010, y := 420 }

/-- An update step with dt = 0 and a fresh player: timers stand still while
platforms still scroll left by the effective speed 3. -/
def idleInput : WorldStep := ⟨0, Player.new, ⟨1, 1⟩⟩

/-- The initial platform layout shifted left by `d`. -/
def metrosAt (d : ℚ) : List Metro :=
  [Metro.new (0 - d) 500 600, Metro.new (600 - d) 500 350, Metro.new (1030 - d) 500 350,
   Metro.new (1460 - d) 500 350, Metro.new (1890 - d) 500 350, Metro.new (2320 - d) 500 350,
   Metro.new (2750 - d) 500 350, Metro.new (3180 - d) 500 350]

/-- The world after the initial layout has scrolled `d` units left with no
spawns and no recycling yet. -/
def idleWorld (d : ℚ) : GameWorld :=
  { GameWorld.new with metros := metrosAt d }

/-- A game sitting on the game-over screen. -/
def gameOverGame : Game :=
  { gameWorld := GameWorld.new.init, score := ⟨0, 0, 0⟩,
    state := GameState.GAME_OVER, player := Player.new, selectedChar := 0 }

/-- A freshly airborne player. -/
def playerJumping : Player := { Player.new with isJumping := true }

/-- A ducking player. -/
def playerDucking : Player := { Player.new with isDucking := true, height := 40 }

/-- The double-jump character with its ability running. -/
def playerVariant1 : Player := { Player.new with headIndex := 1, abilityActive := true }

/-- A player in the middle of the ability cooldown. -/
def playerOnCooldown : Player := { Player.new with abilityCooldown := 5 }

/-! Helper lemmas. -/

lemma metroPass_length (gap speed : ℚ) (rest done : List Metro) :
    (metroPass gap speed done rest).length = done.length + rest.length := by
  induction rest generalizing done with
  | nil => simp [metroPass]
  | cons m rest ih =>
    rw [metroPass, ih]
    simp only [List.length_append, List.length_cons, List.length_nil]
    omega

lemma updateMetros_metros (w : GameWorld) (p : Player) :
    (w.updateMetros p).metros = metroPass w.metroGap (effectiveSpeed w p) [] w.metros := rfl

lemma updateObstacles_metros (w : GameWorld) (dt : ℚ) (p : Player) (r : ℕ) :
    (w.updateObstacles dt p r).metros = w.metros := rfl

lemma updateCoins_metros (w : GameWorld) (dt : ℚ) (p : Player) (r : ℕ) :
    (w.updateCoins dt p r).metros = w.metros := rfl

lemma update_metros_length (w : GameWorld) (dt : ℚ) (p : Player) (r : RandInput) :
    (w.update dt p r).metros.length = w.metros.length := by
  rw [GameWorld.update]
  rw [updateCoins_metros, updateObstacles_metros, updateMetros_metros, metroPass_length]
  split <;> simp

lemma runWorld_metros_length (steps : List WorldStep) (w : GameWorld) :
    (runWorld w steps).metros.length = w.metros.length := by
  induction steps generalizing w with
  | nil => rfl
  | cons s steps ih =>
    have h := ih (w.update s.dt s.player s.rand)
    rw [runWorld] at h ⊢
    simp only [List.foldl_cons]
    rw [h, update_metros_length]

lemma init_metros_length (w : GameWorld) : w.init.metros.length = 8 := by
  show (Metro.new 0 w.metroY 600 ::
    (List.range 7).map (fun i : ℕ => Metro.new (600 + (i : ℚ) * (350 + w.metroGap)) w.metroY 350)).length = 8
  rw [List.length_cons, List.length_map, List.length_range]

/-- C1: every world reachable from `GameWorld::init()` by any finite sequence
of `update(dt, player)` calls still holds exactly 8 platforms: `init` creates
8 and `updateMetros` only relocates platforms, never adds or removes them. -/
theorem platform_count_invariant (steps : List WorldStep) :
    (runWorld GameWorld.new.init steps).metros.length = 8 := by
  rw [runWorld_metros_length, init_metros_length]

lemma range7_eq : List.range 7 = [0, 1, 2, 3, 4, 5, 6] := rfl

lemma init_metros_eq :
    GameWorld.new.init.metros = [Metro.new 0 500 600, Metro.new 600 500 350,
      Metro.new 1030 500 350, Metro.new 1460 500 350, Metro.new 1890 500 350,
      Metro.new 2320 500 350, Metro.new 2750 500 350, Metro.new 3180 500 350] := by
  norm_num [GameWorld.init, GameWorld.new, Metro.new, range7_eq]

lemma init_metroY : GameWorld.new.init.metroY = 500 := rfl

/-- C5 (counterexample): after `GameWorld::init()` the first platform spans
`[0, 600)` and the second starts at exactly `x = 600`, so the gap between the
first platform's right edge and the second platform's left edge is 0, not the
claimed 80. -/
theorem init_first_gap_is_zero :
    GameWorld.new.init.metros[0]? = some (Metro.new 0 500 600) ∧
    GameWorld.new.init.metros[1]? = some (Metro.new 600 500 350) ∧
    ¬((600 : ℚ) = 0 + 600 + 80) := by
  rw [init_metros_eq]
  norm_num

/-- C5 (amended): `GameWorld::init()` creates exactly 8 platforms, all at
y = 500: the first has width 600 and the remaining 7 have width 350; the
second platform starts exactly at the first platform's right edge (gap 0),
and every later pair of consecutive platforms is separated by an 80-unit
gap. -/
theorem init_layout :
    GameWorld.new.init.metros = [Metro.new 0 500 600, Metro.new 600 500 350,
      Metro.new 1030 500 350, Metro.new 1460 500 350, Metro.new 1890 500 350,
      Metro.new 2320 500 350, Metro.new 2750 500 350, Metro.new 3180 500 350] ∧
    (600 : ℚ) = 0 + 600 + 0 ∧
    (1030 : ℚ) = 600 + 350 + 80 ∧ (1460 : ℚ) = 1030 + 350 + 80 ∧
    (1890 : ℚ) = 1460 + 350 + 80 ∧ (2320 : ℚ) = 1890 + 350 + 80 ∧
    (2750 : ℚ) = 2320 + 350 + 80 ∧ (3180 : ℚ) = 2750 + 350 + 80 := by
  refine ⟨init_metros_eq, by norm_num⟩

/-- C2 (counterexample): `playerAboveGround` has its horizontal center (1000)
over no platform of the initial world and sits at `y = groundY + 51` for
`groundY = getGroundY(player) = metroY - height`, yet `checkFallThrough`
returns false: the code compares `y` against `metroY + 50`, not
`groundY + 50`. -/
theorem fallThrough_not_groundY_relative :
    playerAboveGround.y = GameWorld.new.init.getGroundY playerAboveGround + 51 ∧
    (GameWorld.new.init.metros.all fun m =>
      !decide (m.x < playerAboveGround.x + playerAboveGround.width / 2 ∧
               playerAboveGround.x + playerAboveGround.width / 2 < m.x + m.width)) = true ∧
    GameWorld.new.init.checkFallThrough playerAboveGround = false := by
  refine ⟨?_, ?_, ?_⟩
  · norm_num [GameWorld.getGroundY, init_metroY, playerAboveGround, Player.new]
  · rw [init_metros_eq]
    norm_num [Metro.new, playerAboveGround, Player.new]
  · norm_num [GameWorld.checkFallThrough, init_metros_eq, init_metroY, Metro.new,
      playerAboveGround, Player.new]

/-- C2 (amended): for every player whose horizontal center lies within no
platform's span, `checkFallThrough` compares the player's y against
platform level + 50 (`metroY + 50`, not `groundY + 50`): it returns true at
`y = metroY + 51` and false at `y = metroY + 49`. -/
theorem fallThrough_threshold (w : GameWorld) (p : Player)
    (h : ∀ m ∈ w.metros,
      ¬(m.x < p.x + p.width / 2 ∧ p.x + p.width / 2 < m.x + m.width)) :
    (p.y = w.metroY + 51 → w.checkFallThrough p = true) ∧
    (p.y = w.metroY + 49 → w.checkFallThrough p = false) := by
  have hany : (w.metros.any fun m =>
      decide (p.x + p.width / 2 > m.x ∧ p.x + p.width / 2 < m.x + m.width)) = false := by
    simp only [List.any_eq_false, decide_eq_true_eq]
    exact h
  have hrw : w.checkFallThrough p = decide (p.y > w.metroY + 50) := by
    show (if (w.metros.any fun m =>
        decide (p.x + p.width / 2 > m.x ∧ p.x + p.width / 2 < m.x + m.width)) = true
      then false else decide (p.y > w.metroY + 50)) = decide (p.y > w.metroY + 50)
    rw [hany]
    simp
  rw [hrw]
  constructor
  · intro hy
    rw [hy]
    simp only [decide_eq_true_eq]
    linarith
  · intro hy
    rw [hy]
    simp only [decide_eq_false_iff_not]
    intro hcon
    linarith

/-- C3 (counterexample): `playerEdge` is at ground level with its horizontal
center (1030) exactly on the left edge of the third initial platform, inside
the half-open span `[1030, 1380)`, yet `isPlayerOnPlatform` returns false:
the code requires the center to be strictly greater than the platform's
left edge. -/
theorem onPlatform_left_edge_excluded :
    playerEdge.y ≥ GameWorld.new.init.getGroundY playerEdge - 5 ∧
    Metro.new 1030 500 350 ∈ GameWorld.new.init.metros ∧
    (Metro.new 1030 500 350).x ≤ playerEdge.x + playerEdge.width / 2 ∧
    playerEdge.x + playerEdge.width / 2 <
      (Metro.new 1030 500 350).x + (Metro.new 1030 500 350).width ∧
    GameWorld.new.init.isPlayerOnPlatform playerEdge = false := by
  refine ⟨?_, ?_, ?_, ?_, ?_⟩
  · norm_num [GameWorld.getGroundY, init_metroY, playerEdge, Player.new]
  · rw [init_metros_eq]; simp
  · norm_num [Metro.new, playerEdge, Player.new]
  · norm_num [Metro.new, playerEdge, Player.new]
  · norm_num [GameWorld.isPlayerOnPlatform, init_metros_eq, init_metroY, Metro.new,
      playerEdge, Player.new]

/-- C3 (amended): for every player state and every platform collection,
`isPlayerOnPlatform` returns true iff `player.y ≥ groundY - 5`
(`groundY = metroY - height`) and the player's horizontal center lies within
some platform's open span `(x, x + width)`: both edges are excluded, so at a
platform's left edge the query is false. -/
theorem isPlayerOnPlatform_iff (w : GameWorld) (p : Player) :
    w.isPlayerOnPlatform p = true ↔
      (p.y ≥ w.metroY - p.height - 5 ∧
       ∃ m ∈ w.metros, m.x < p.x + p.width / 2 ∧ p.x + p.width / 2 < m.x + m.width) := by
  show (if p.y ≥ w.metroY - p.height - 5 then
      w.metros.any fun m =>
        decide (p.x + p.width / 2 > m.x ∧ p.x + p.width / 2 < m.x + m.width)
    else false) = true ↔ _
  split_ifs with h
  · simp only [List.any_eq_true, decide_eq_true_eq]
    constructor
    · rintro ⟨m, hm, h1, h2⟩
      exact ⟨h, m, hm, h1, h2⟩
    · rintro ⟨_, m, hm, h1, h2⟩
      exact ⟨m, hm, h1, h2⟩
  · constructor
    · intro hfalse
      exact absurd hfalse (by simp)
    · rintro ⟨hy, _⟩
      exact absurd hy h

/-- Witness for the amended C2 theorem: in the initial world, a player with
center x = 1000 (over the gap) is detected as fallen at y = 551 = metroY + 51
and not at y = 549 = metroY + 49. -/
theorem fallThrough_threshold_witness :
    GameWorld.new.init.checkFallThrough playerFallHigh = true ∧
    GameWorld.new.init.checkFallThrough playerFallLow = false := by
  constructor
  · refine (fallThrough_threshold GameWorld.new.init playerFallHigh ?_).1 ?_
    · rw [init_metros_eq]
      norm_num [Metro.new, playerFallHigh, Player.new]
    · norm_num [playerFallHigh, Player.new, init_metroY]
  · refine (fallThrough_threshold GameWorld.new.init playerFallLow ?_).2 ?_
    · rw [init_metros_eq]
      norm_num [Metro.new, playerFallLow, Player.new]
    · norm_num [playerFallLow, Player.new, init_metroY]

lemma foldlMax_ge_acc (ms : List Metro) (acc : ℚ) :
    acc ≤ ms.foldl (fun a mm => if mm.x > a then mm.x else a) acc := by
  induction ms generalizing acc with
  | nil => simp
  | cons mm ms ih =>
    simp only [List.foldl_cons]
    refine le_trans ?_ (ih _)
    split_ifs with hgt
    · linarith
    · exact le_rfl

lemma foldlMax_ge_mem (ms : List Metro) (acc : ℚ) (m : Metro) (hm : m ∈ ms) :
    m.x ≤ ms.foldl (fun a mm => if mm.x > a then mm.x else a) acc := by
  induction ms generalizing acc with
  | nil => cases hm
  | cons mm ms ih =>
    simp only [List.foldl_cons]
    rcases List.mem_cons.mp hm with h | h
    · subst h
      refine le_trans ?_ (foldlMax_ge_acc ms _)
      split_ifs with hgt
      · exact le_rfl
      · exact le_of_not_lt hgt
    · exact ih _ h

lemma currentMaxX_ge (ms : List Metro) (m : Metro) (hm : m ∈ ms) :
    m.x ≤ currentMaxX ms :=
  foldlMax_ge_mem ms (-1000) m hm

lemma metroPass_no_recycle (gap speed : ℚ) (rest : List Metro) : ∀ done : List Metro,
    (∀ m ∈ rest, ¬(m.x - speed + m.width < -50)) →
    metroPass gap speed done rest =
      done ++ rest.map (fun mm => { mm with x := mm.x - speed }) := by
  induction rest with
  | nil => intro done _; simp [metroPass]
  | cons m ms ih =>
    intro done h
    show metroPass gap speed
        (done ++ [if m.x - speed + m.width < -50 then
            { m with x := currentMaxX (done ++ { m with x := m.x - speed } :: ms) + 350 + gap }
          else { m with x := m.x - speed }]) ms =
      done ++ (m :: ms).map (fun mm => { mm with x := mm.x - speed })
    rw [if_neg (h m (List.mem_cons_self m ms))]
    rw [ih _ (fun mm hm => h mm (List.mem_cons_of_mem m hm))]
    simp

lemma effectiveSpeed_idle (d : ℚ) : effectiveSpeed (idleWorld d) Player.new = 3 := by
  norm_num [effectiveSpeed, idleWorld, GameWorld.new, Player.new,
    Player.getSpeedMultiplier, Player.getPlayerSpeedMultiplier]

lemma idle_step (d : ℚ) (hd : d ≤ 647) :
    (idleWorld d).update 0 Player.new ⟨1, 1⟩ = idleWorld (d + 3) := by
  have hnr : ∀ m ∈ (idleWorld d).metros, ¬(m.x - 3 + m.width < -50) := by
    intro m hm
    simp only [idleWorld, metrosAt, Metro.new, List.mem_cons, List.not_mem_nil, or_false] at hm
    rcases hm with rfl | rfl | rfl | rfl | rfl | rfl | rfl | rfl <;>
      simp only [not_lt] <;> linarith
  show ((((if (idleWorld d).speedIncreaseTimer + (0 : ℚ) ≥ 10 then
        { idleWorld d with gameSpeed := (idleWorld d).gameSpeed + 1/2, speedIncreaseTimer := 0 }
      else
        { idleWorld d with
            speedIncreaseTimer := (idleWorld d).speedIncreaseTimer + 0 }).updateMetros
      Player.new).updateObstacles 0 Player.new 1).updateCoins 0 Player.new 1) = idleWorld (d + 3)
  rw [if_neg (by norm_num [idleWorld, GameWorld.new])]
  have hB : ({ idleWorld d with
      speedIncreaseTimer := (idleWorld d).speedIncreaseTimer + 0 } : GameWorld) = idleWorld d := by
    norm_num [idleWorld, GameWorld.new]
  rw [hB]
  have hM : (idleWorld d).updateMetros Player.new = idleWorld (d + 3) := by
    show ({ idleWorld d with
        metros := metroPass (idleWorld d).metroGap (effectiveSpeed (idleWorld d) Player.new)
          [] (idleWorld d).metros } : GameWorld) = idleWorld (d + 3)
    rw [effectiveSpeed_idle]
    rw [metroPass_no_recycle _ _ _ [] hnr]
    simp only [List.nil_append]
    norm_num [idleWorld, metrosAt, Metro.new, GameWorld.new]
    refine ⟨by ring, by ring, by ring, by ring, by ring, by ring, by ring, by ring⟩
  rw [hM]
  have hO : (idleWorld (d + 3)).updateObstacles 0 Player.new 1 = idleWorld (d + 3) := by
    norm_num [GameWorld.updateObstacles, idleWorld, GameWorld.new]
  rw [hO]
  norm_num [GameWorld.updateCoins, idleWorld, GameWorld.new]

lemma idle_start : GameWorld.new.init = idleWorld 0 := by
  norm_num [GameWorld.init, GameWorld.new, idleWorld, metrosAt, Metro.new, range7_eq]

lemma idle_runWorld (n : ℕ) (hn : n ≤ 216) :
    runWorld GameWorld.new.init (List.replicate n idleInput) = idleWorld (3 * n) := by
  induction n with
  | zero =>
    show GameWorld.new.init = idleWorld (3 * (0 : ℕ))
    rw [idle_start]
    norm_num
  | succ k ih =>
    have hk : k ≤ 216 := Nat.le_of_succ_le hn
    have hk215 : k ≤ 215 := Nat.lt_succ_iff.mp hn
    rw [List.replicate_succ']
    rw [runWorld, List.foldl_append]
    rw [← runWorld, ← runWorld, ih hk]
    show (idleWorld (3 * k)).update 0 Player.new ⟨1, 1⟩ = idleWorld (3 * (k + 1 : ℕ))
    rw [idle_step (3 * k) (by
      have : (k : ℚ) ≤ 215 := by exact_mod_cast hk215
      linarith)]
    congr 1
    push_cast
    ring

/-- C4 (counterexample): starting from `GameWorld::init()` and running 217
update ticks with dt = 0 (platforms scroll 3 units left per tick), the first
platform (width 600) is recycled on tick 217: after moving, its right edge is
at -51 < -50, the maximum x among all platforms at that moment is 2532, and
it reappears at 2962 = 2532 + 350 + 80 — the constant 350, not its own width
600 as the claim demands (that would give 2532 + 600 + 80 = 3212). -/
theorem recycle_uses_constant_width :
    (runWorld GameWorld.new.init (List.replicate 217 idleInput)).metros =
      [Metro.new 2962 500 600, Metro.new (-51) 500 350, Metro.new 379 500 350,
       Metro.new 809 500 350, Metro.new 1239 500 350, Metro.new 1669 500 350,
       Metro.new 2099 500 350, Metro.new 2529 500 350] ∧
    currentMaxX [Metro.new (-651) 500 600, Metro.new (-48) 500 350, Metro.new 382 500 350,
       Metro.new 812 500 350, Metro.new 1242 500 350, Metro.new 1672 500 350,
       Metro.new 2102 500 350, Metro.new 2532 500 350] = 2532 ∧
    (2962 : ℚ) = 2532 + 350 + 80 ∧
    ¬((2962 : ℚ) = 2532 + 600 + 80) := by
  have h217 : runWorld GameWorld.new.init (List.replicate 217 idleInput) =
      (idleWorld 648).update 0 Player.new ⟨1, 1⟩ := by
    have : (217 : ℕ) = 216 + 1 := rfl
    rw [this, List.replicate_succ']
    rw [runWorld, List.foldl_append]
    rw [← runWorld, ← runWorld, idle_runWorld 216 (by norm_num)]
    show (idleWorld (3 * (216 : ℕ))).update 0 Player.new ⟨1, 1⟩ =
      (idleWorld 648).update 0 Player.new ⟨1, 1⟩
    norm_num
  refine ⟨?_, ?_, by norm_num, by norm_num⟩
  · rw [h217]
    norm_num [GameWorld.update, GameWorld.updateMetros, GameWorld.updateObstacles,
      GameWorld.updateCoins, metroPass, currentMaxX, effectiveSpeed, idleWorld, metrosAt,
      GameWorld.new, Metro.new, Player.new, Player.getSpeedMultiplier,
      Player.getPlayerSpeedMultiplier, coinStep]
  · norm_num [currentMaxX, Metro.new]

/-- C4 (amended): whenever a platform is recycled during the `updateMetros`
pass (after moving, its right edge has passed 50 units left of the screen
edge), its new x equals the maximum x among all platforms at that moment
(the platform itself already moved, the earlier ones already updated) plus
the constant 350 (the standard platform width, regardless of the recycled
platform's own width) plus the 80-unit gap; this places it strictly to the
right of every platform present at that moment, preserving the strictly
increasing x-ordering of the visible run. -/
theorem recycle_position (speed : ℚ) (done rest : List Metro) (m : Metro)
    (h : m.x - speed + m.width < -50) :
    metroPass 80 speed done (m :: rest) =
      metroPass 80 speed
        (done ++ [{ m with
          x := currentMaxX (done ++ { m with x := m.x - speed } :: rest) + 350 + 80 }]) rest ∧
    ∀ m2 ∈ done ++ { m with x := m.x - speed } :: rest,
      m2.x < currentMaxX (done ++ { m with x := m.x - speed } :: rest) + 350 + 80 := by
  constructor
  · show metroPass 80 speed
        (done ++ [if m.x - speed + m.width < -50 then
            { m with x := currentMaxX (done ++ { m with x := m.x - speed } :: rest) + 350 + 80 }
          else { m with x := m.x - speed }]) rest = _
    rw [if_pos h]
  · intro m2 hm2
    have h1 := currentMaxX_ge _ m2 hm2
    linarith

/-- Witness for the amended C4 theorem, at the concrete recycling situation
of `recycle_uses_constant_width`. -/
theorem recycle_position_witness :
    ((-648 : ℚ) - 3 + 600 < -50) ∧
    (metroPass 80 3 [] [(⟨-648, 500, 600, true⟩ : Metro), ⟨1000, 500, 350, true⟩] =
      metroPass 80 3
        [⟨currentMaxX [(⟨-648 - 3, 500, 600, true⟩ : Metro), ⟨1000, 500, 350, true⟩] + 350 + 80,
          500, 600, true⟩]
        [⟨1000, 500, 350, true⟩] ∧
     ∀ m2 ∈ [(⟨-648 - 3, 500, 600, true⟩ : Metro), ⟨1000, 500, 350, true⟩],
       m2.x < currentMaxX [(⟨-648 - 3, 500, 600, true⟩ : Metro),
         ⟨1000, 500, 350, true⟩] + 350 + 80) :=
  ⟨by norm_num,
   recycle_position 3 [] [⟨1000, 500, 350, true⟩] ⟨-648, 500, 600, true⟩ (by norm_num)⟩

/-- C6: for a grounded player with `headIndex = 1` and the ability active,
the first `jump()` sets `velocityY` to -12 and makes the player airborne, a
second `jump()` before landing applies the -12 impulse once more and sets
`hasDoubleJumped`, and a third `jump()` before landing changes nothing. -/
theorem double_jump_sequence (p : Player) (h1 : p.isJumping = false)
    (h2 : p.headIndex = 1) (h3 : p.abilityActive = true) :
    p.jump.velocityY = -12 ∧ p.jump.isJumping = true ∧
    p.jump.jump.velocityY = -12 ∧ p.jump.jump.hasDoubleJumped = true ∧
    p.jump.jump.jump = p.jump.jump := by
  have e1 : p.jump = { p with velocityY := -12, isJumping := true, hasDoubleJumped := false } := by
    rw [Player.jump, if_pos h1]
  have e2 : p.jump.jump =
      { p with velocityY := -12, isJumping := true, hasDoubleJumped := true } := by
    rw [e1, Player.jump]
    simp [h2, h3]
  have e3 : p.jump.jump.jump = p.jump.jump := by
    rw [e2, Player.jump]
    simp
  exact ⟨by rw [e1], by rw [e1], by rw [e2], by rw [e2], e3⟩

/-- Witness for C6, at the double-jump character with a running ability. -/
theorem double_jump_sequence_witness :
    playerVariant1.jump.velocityY = -12 ∧ playerVariant1.jump.isJumping = true ∧
    playerVariant1.jump.jump.velocityY = -12 ∧
    playerVariant1.jump.jump.hasDoubleJumped = true ∧
    playerVariant1.jump.jump.jump = playerVariant1.jump.jump :=
  double_jump_sequence playerVariant1 rfl rfl rfl

lemma activateAbility_of_pos (p : Player) (h : 0 < p.abilityCooldown) :
    p.activateAbility = p := by
  rw [Player.activateAbility, if_neg (not_le.mpr h)]

lemma activateAbility_cooldown_eq (p : Player) (h : p.abilityCooldown ≤ 0) :
    p.activateAbility.abilityCooldown = 8 := by
  rw [Player.activateAbility, if_pos h]

/-- C7: `activateAbility()` leaves the player unchanged whenever the cooldown
is positive; consequently, from any state with cooldown ≤ 0 and head index in
0..3, a second immediate `activateAbility()` has no effect, since the first
set the cooldown to 8. -/
theorem ability_cooldown_gate (p : Player) :
    (0 < p.abilityCooldown → p.activateAbility = p) ∧
    (p.abilityCooldown ≤ 0 → 0 ≤ p.headIndex → p.headIndex ≤ 3 →
      p.activateAbility.activateAbility = p.activateAbility) := by
  constructor
  · exact activateAbility_of_pos p
  · intro h _ _
    apply activateAbility_of_pos
    rw [activateAbility_cooldown_eq p h]
    norm_num

/-- Witness for C7: a player mid-cooldown is unchanged, and a fresh player's
double activation equals a single one. -/
theorem ability_cooldown_gate_witness :
    playerOnCooldown.activateAbility = playerOnCooldown ∧
    Player.new.activateAbility.activateAbility = Player.new.activateAbility := by
  constructor
  · exact (ability_cooldown_gate playerOnCooldown).1 (by norm_num [playerOnCooldown, Player.new])
  · exact (ability_cooldown_gate Player.new).2 (by norm_num [Player.new])
      (by norm_num [Player.new]) (by norm_num [Player.new])

/-- C8: in the coin loop an uncollected coin becomes collected exactly when
the player's AABB and the (just moved) coin's AABB overlap with strict
inequality in all four comparisons; the credited amount is 2 under
`hasDoubleCoinBonus()` and 1 otherwise, and `hasDoubleCoinBonus()` holds iff
`headIndex = 2` and the ability is active. -/
theorem coin_collection_rule (p : Player) (speed : ℚ) (c : Coin) :
    ((coinStep p speed c).1.collected = true ↔
      (c.collected = true ∨
        (p.x < c.x - speed + c.size ∧ p.x + p.width > c.x - speed ∧
         p.y < c.y + c.size ∧ p.y + p.height > c.y))) ∧
    ((coinStep p speed c).2 =
      if c.collected = false ∧
         p.x < c.x - speed + c.size ∧ p.x + p.width > c.x - speed ∧
         p.y < c.y + c.size ∧ p.y + p.height > c.y
       then (if p.hasDoubleCoinBonus = true then 2 else 1) else 0) ∧
    (p.hasDoubleCoinBonus = true ↔ (p.headIndex = 2 ∧ p.abilityActive = true)) := by
  have hcoin : coinStep p speed c =
      if c.collected = false ∧
         p.x < c.x - speed + c.size ∧ p.x + p.width > c.x - speed ∧
         p.y < c.y + c.size ∧ p.y + p.height > c.y
       then ({ c with x := c.x - speed, collected := true },
             if p.hasDoubleCoinBonus = true then (2 : ℤ) else 1)
       else ({ c with x := c.x - speed }, (0 : ℤ)) := rfl
  refine ⟨?_, ?_, by simp [Player.hasDoubleCoinBonus]⟩
  · rw [hcoin]
    by_cases hc : c.collected = false ∧
        p.x < c.x - speed + c.size ∧ p.x + p.width > c.x - speed ∧
        p.y < c.y + c.size ∧ p.y + p.height > c.y
    · rw [if_pos hc]
      exact iff_of_true rfl (Or.inr hc.2)
    · rw [if_neg hc]
      show c.collected = true ↔ _
      cases hb : c.collected
      · simp only [hb, Bool.false_eq_true, false_iff, false_or]
        exact fun hov => hc ⟨hb, hov⟩
      · simp [hb]
  · rw [hcoin]
    by_cases hc : c.collected = false ∧
        p.x < c.x - speed + c.size ∧ p.x + p.width > c.x - speed ∧
        p.y < c.y + c.size ∧ p.y + p.height > c.y
    · simp only [if_pos hc]
    · simp only [if_neg hc]

/-- C9: `Game::update(dt)` is a no-op in every state other than PLAYING:
player, world collections, timers, speed, coin tally and session state are
exactly as before the call. -/
theorem update_noop_outside_playing (g : Game) (dt : ℚ) (r : RandInput)
    (h : g.state ≠ GameState.PLAYING) :
    g.update dt r = g := by
  rw [Game.update, if_pos h]

/-- Witness for C9, on the game-over screen. -/
theorem update_noop_outside_playing_witness :
    gameOverGame.update 1 ⟨0, 0⟩ = gameOverGame :=
  update_noop_outside_playing gameOverGame 1 ⟨0, 0⟩ (by simp [gameOverGame])

lemma duck_heightInv (p : Player) (h : heightInv p) : heightInv p.duck := by
  rw [Player.duck]
  split_ifs with hj
  · exact Or.inl ⟨rfl, rfl⟩
  · exact h

lemma stopDuck_heightInv (p : Player) (h : heightInv p) : heightInv p.stopDuck := by
  rw [Player.stopDuck]
  split_ifs with hd
  · exact Or.inr ⟨rfl, rfl⟩
  · exact h

lemma jump_heightInv (p : Player) (h : heightInv p) : heightInv p.jump := by
  rw [Player.jump]
  split_ifs <;> exact h

lemma update_heightInv (p : Player) (g dt : ℚ) (h : heightInv p) :
    heightInv (p.update g dt) := by
  simp only [Player.update]
  split_ifs <;> exact h

lemma applyOp_heightInv (p : Player) (op : PlayerOp) (h : heightInv p) :
    heightInv (applyOp p op) := by
  cases op with
  | duckOp => exact duck_heightInv p h
  | stopDuckOp => exact stopDuck_heightInv p h
  | jumpOp => exact jump_heightInv p h
  | updateOp g dt => exact update_heightInv p g dt h

lemma runOps_heightInv (ops : List PlayerOp) (p : Player) (h : heightInv p) :
    heightInv (runOps p ops) := by
  induction ops generalizing p with
  | nil => exact h
  | cons op ops ih =>
    rw [runOps] at *
    simp only [List.foldl_cons]
    exact ih (applyOp p op) (applyOp_heightInv p op h)

/-- C10: `duck()` is a no-op while airborne; when grounded it sets ducking
and height 40; `stopDuck()` restores height 80 whenever ducking; and from a
fresh player, after any sequence of duck/stopDuck/jump/update calls the
height is 40 exactly while ducking and 80 otherwise. -/
theorem duck_height_invariant :
    (∀ p : Player, p.isJumping = true → p.duck = p) ∧
    (∀ p : Player, p.isJumping = false → p.duck.isDucking = true ∧ p.duck.height = 40) ∧
    (∀ p : Player, p.isDucking = true → p.stopDuck.height = 80) ∧
    (∀ ops : List PlayerOp, heightInv (runOps Player.new ops)) := by
  refine ⟨?_, ?_, ?_, ?_⟩
  · intro p hj
    rw [Player.duck, if_neg (by simp [hj])]
  · intro p hj
    rw [Player.duck, if_pos hj]
    exact ⟨rfl, rfl⟩
  · intro p hd
    rw [Player.stopDuck, if_pos hd]
  · intro ops
    exact runOps_heightInv ops Player.new (Or.inr ⟨rfl, rfl⟩)

/-- Witness for C10, at concrete players and the one-duck call sequence. -/
theorem duck_height_invariant_witness :
    playerJumping.duck = playerJumping ∧
    (Player.new.duck.isDucking = true ∧ Player.new.duck.height = 40) ∧
    playerDucking.stopDuck.height = 80 ∧
    heightInv (runOps Player.new [PlayerOp.duckOp]) :=
  ⟨duck_height_invariant.1 playerJumping rfl,
   duck_height_invariant.2.1 Player.new rfl,
   duck_height_invariant.2.2.1 playerDucking rfl,
   duck_height_invariant.2.2.2 [PlayerOp.duckOp]⟩

end MetroRunner
